import Mathlib

/-!
Verification of the ghostty-config configuration core: the structure-preserving
config document model (`src/config/model.rs`, `src/config/file_io.rs`), the
type inferencer (`src/config/type_inference.rs`), the categorizer
(`src/config/categorize.rs`) and the schema parser (`src/config/parser.rs`).

Strings are modelled as `List Char`; Rust's Unicode-whitespace `trim` is
modelled with `Char.isWhitespace` (the configuration text is ASCII).
File contents are byte/char sequences; the filesystem is modelled as an
`Option (List Char)` (`none` = file does not exist).
-/

namespace GhosttyConfig

/-- Shorthand: the character list underlying a string literal. -/
def str (s : String) : List Char := s.data

/-- Rust `str::trim` (leading part): drop leading whitespace. -/
def ltrim (l : List Char) : List Char := l.dropWhile Char.isWhitespace

/-- Rust `str::trim` (trailing part): drop trailing whitespace. -/
def rtrim (l : List Char) : List Char := (l.reverse.dropWhile Char.isWhitespace).reverse

/-- Rust `str::trim`. -/
def rustTrim (l : List Char) : List Char := rtrim (ltrim l)

/-- Rust `str::split_once(sep)`: split at the first occurrence of `sep`,
returning the parts before and after it, or `none` when `sep` is absent. -/
def splitOnce (sep : Char) : List Char → Option (List Char × List Char)
  | [] => none
  | c :: cs =>
    if c = sep then some ([], cs)
    else (splitOnce sep cs).map (fun p => (c :: p.1, p.2))

/-- The `\r`-stripping Rust's `str::lines` applies to each segment. -/
def stripCR (l : List Char) : List Char :=
  if l.getLast? = some '\r' then l.dropLast else l

/-- Rust `str::lines`: split on `'\n'`, the final line ending optional,
each line stripped of one trailing `'\r'`. -/
def rustLines (content : List Char) : List (List Char) :=
  let segs := content.splitOn '\n'
  (if segs.getLast? = some [] then segs.dropLast else segs).map stripCR

/-- `ConfigEntry` from `src/config/model.rs`: one physical line of the
user's config file. -/
inductive ConfigEntry
  | comment (text : List Char)
  | blankLine
  | keyValue (key : List Char) (value : List Char)
deriving DecidableEq

/-- The line classification performed by the loop body of `read_config`
(`src/config/file_io.rs`): blank if it trims to nothing, comment if it starts
with `'#'`, key/value if it contains `'='` (both sides trimmed), and an opaque
comment otherwise. -/
def classifyLine (line : List Char) : ConfigEntry :=
  if rustTrim line = [] then .blankLine
  else if line.head? = some '#' then .comment line
  else
    match splitOnce '=' line with
    | some (k, v) => .keyValue (rustTrim k) (rustTrim v)
    | none => .comment line

/-- The pure part of `read_config`: the entry list built from file content. -/
def read_config_entries (content : List Char) : List ConfigEntry :=
  (rustLines content).map classifyLine

/-- `read_config` (`src/config/file_io.rs`): a non-existent file yields an
empty document, otherwise the content is classified line by line. -/
def read_config (file : Option (List Char)) : List ConfigEntry :=
  match file with
  | none => []
  | some content => read_config_entries content

/-- One entry's serialized bytes in `write_config` (`src/config/file_io.rs`):
comments verbatim, blank lines as a bare newline, key/value lines as
`key = value`, each followed by `'\n'`. -/
def renderEntry : ConfigEntry → List Char
  | .comment text => text ++ ['\n']
  | .blankLine => ['\n']
  | .keyValue key value => key ++ str " = " ++ value ++ ['\n']

/-- `write_config` (`src/config/file_io.rs`): the bytes written to disk. -/
def write_config (entries : List ConfigEntry) : List Char :=
  (entries.map renderEntry).flatten

/-- What one input line becomes, bytewise, after a read/write cycle: blank
lines become empty, comment and unparseable lines survive verbatim, key/value
lines are normalized to `key = value` with both sides trimmed. -/
def normalized_line (line : List Char) : List Char :=
  if rustTrim line = [] then []
  else if line.head? = some '#' then line
  else
    match splitOnce '=' line with
    | some (k, v) => rustTrim k ++ str " = " ++ rustTrim v
    | none => line

theorem renderEntry_classifyLine (line : List Char) :
    renderEntry (classifyLine line) = normalized_line line ++ ['\n'] := by
  unfold classifyLine normalized_line
  split
  · rfl
  · split
    · rfl
    · split
      · simp [renderEntry, List.append_assoc]
      · rfl

/-- C1 (counterexample): a key-value line written without spaces around `=`
is not reproduced byte-identically by an unmutated write. -/
theorem c1_counterexample :
    write_config (read_config_entries (str "a=b\n")) ≠ str "a=b\n" := by decide

/-- C1 (amended): writing an unmutated document reproduces, for each input
line in reader order, the line followed by a newline — byte-identical for
comment and unparseable lines, an empty line for blank lines, and
`key = value` (both sides trimmed) for key-value lines. -/
theorem c1_write_normalizes_linewise (content : List Char) :
    write_config (read_config_entries content) =
      ((rustLines content).map (fun l => normalized_line l ++ ['\n'])).flatten := by
  unfold write_config read_config_entries
  rw [List.map_map]
  congr 1
  apply List.map_congr_left
  intro l _
  exact renderEntry_classifyLine l

/-- The line (without its newline terminator) an entry serializes to. -/
def entryLine : ConfigEntry → List Char
  | .comment text => text
  | .blankLine => []
  | .keyValue key value => key ++ str " = " ++ value

theorem renderEntry_eq_entryLine (e : ConfigEntry) :
    renderEntry e = entryLine e ++ ['\n'] := by
  cases e <;> simp [renderEntry, entryLine]

theorem splitOn_newline_flatten (L : List (List Char)) (tail : List Char)
    (h : ∀ l ∈ L, '\n' ∉ l) :
    ((L.map (· ++ ['\n'])).flatten ++ tail).splitOn '\n' = L ++ tail.splitOn '\n' := by
  induction L with
  | nil => simp
  | cons l L ih =>
    have hl : ∀ x ∈ l, ¬((x == '\n') = true) := by
      intro x hx
      simp only [beq_iff_eq]
      exact fun hc => h l (List.mem_cons_self l L) (hc ▸ hx)
    calc ((((l :: L).map (· ++ ['\n'])).flatten) ++ tail).splitOn '\n'
        = (l ++ '\n' :: ((L.map (· ++ ['\n'])).flatten ++ tail)).splitOn '\n' := by
          simp [List.append_assoc]
      _ = l :: ((L.map (· ++ ['\n'])).flatten ++ tail).splitOn '\n' :=
          List.splitOnP_first _ l hl '\n' (by simp) _
      _ = l :: (L ++ tail.splitOn '\n') := by
          rw [ih (fun x hx => h x (List.mem_cons_of_mem l hx))]

theorem rustLines_write_config (es : List ConfigEntry)
    (h : ∀ e ∈ es, '\n' ∉ entryLine e ∧ (entryLine e).getLast? ≠ some '\r') :
    rustLines (write_config es) = es.map entryLine := by
  unfold rustLines write_config
  have hmap : es.map renderEntry = (es.map entryLine).map (· ++ ['\n']) := by
    rw [List.map_map]
    exact List.map_congr_left fun e _ => renderEntry_eq_entryLine e
  rw [hmap]
  have hsplit := splitOn_newline_flatten (es.map entryLine) []
    (by intro l hl; obtain ⟨e, he, rfl⟩ := List.mem_map.mp hl; exact (h e he).1)
  rw [List.append_nil] at hsplit
  rw [hsplit]
  simp only [List.splitOn_nil]
  rw [if_pos (by simp [List.getLast?_concat]), List.dropLast_concat, List.map_map]
  have : ∀ e ∈ es, (stripCR ∘ entryLine) e = entryLine e := by
    intro e he
    simp only [Function.comp_apply]
    unfold stripCR
    rw [if_neg (h e he).2]
  exact List.map_congr_left this

/-- An entry is a comment or blank line that survives a write/read cycle:
blank lines always do; a comment survives when its text has no embedded
newline, no trailing carriage return, and is classified back as the same
comment by the reader. -/
def comment_roundtrips : ConfigEntry → Bool
  | .comment t =>
      decide ('\n' ∉ t) && decide (t.getLast? ≠ some '\r') &&
        decide (classifyLine t = .comment t)
  | .blankLine => true
  | .keyValue _ _ => false

/-- C2 (counterexample): a document built from the single Comment entry
`a=b` does not survive write-then-read — the written line parses back as a
KeyValue entry, so the entry sequence is not reproduced. -/
theorem c2_counterexample :
    read_config_entries (write_config [.comment (str "a=b")]) ≠
      [ConfigEntry.comment (str "a=b")] := by decide

/-- C2 (amended): for a document whose entries are all Comment or BlankLine
entries, where each comment's text has no embedded newline, no trailing
carriage return, and reads back as a comment line, write-then-read reproduces
the identical entry sequence, and a further write emits the same bytes
(so on-disk bytes are reproduced exactly for input already in written form). -/
theorem c2_comment_blank_roundtrip (es : List ConfigEntry)
    (h : ∀ e ∈ es, comment_roundtrips e = true) :
    read_config_entries (write_config es) = es ∧
      write_config (read_config_entries (write_config es)) = write_config es := by
  have hread : read_config_entries (write_config es) = es := by
    unfold read_config_entries
    rw [rustLines_write_config es ?side]
    case side =>
      intro e he
      have := h e he
      cases e with
      | comment t =>
        simp only [comment_roundtrips, Bool.and_eq_true, decide_eq_true_eq] at this
        exact ⟨this.1.1, this.1.2⟩
      | blankLine => simp [entryLine]
      | keyValue k v => simp [comment_roundtrips] at this
    rw [List.map_map]
    have : ∀ e ∈ es, (classifyLine ∘ entryLine) e = e := by
      intro e he
      have := h e he
      cases e with
      | comment t =>
        simp only [comment_roundtrips, Bool.and_eq_true, decide_eq_true_eq] at this
        exact this.2
      | blankLine => simp [entryLine, classifyLine, rustTrim, ltrim, rtrim]
      | keyValue k v => simp [comment_roundtrips] at this
    calc es.map (classifyLine ∘ entryLine) = es.map id := List.map_congr_left this
      _ = es := List.map_id es
  exact ⟨hread, by rw [hread]⟩

/-- C2 (witness for the amended theorem). -/
theorem c2_witness :
    (∀ e ∈ [ConfigEntry.comment (str "# header"), ConfigEntry.blankLine,
        ConfigEntry.comment (str "plain text")], comment_roundtrips e = true) ∧
      read_config_entries (write_config [ConfigEntry.comment (str "# header"),
          ConfigEntry.blankLine, ConfigEntry.comment (str "plain text")]) =
        [ConfigEntry.comment (str "# header"), ConfigEntry.blankLine,
          ConfigEntry.comment (str "plain text")] :=
  ⟨by decide, (c2_comment_blank_roundtrip _ (by decide)).1⟩

/-- `UserConfig::get` (`src/config/model.rs`): scan the entries from the end
and return the value of the first KeyValue entry matching the key. -/
def UserConfig.get (entries : List ConfigEntry) (key : List Char) :
    Option (List Char) :=
  entries.reverse.findSome? fun e =>
    match e with
    | .keyValue k v => if k = key then some v else none
    | _ => none

/-- `UserConfig::get_all` (`src/config/model.rs`): the values of all matching
KeyValue entries in document order. -/
def UserConfig.get_all (entries : List ConfigEntry) (key : List Char) :
    List (List Char) :=
  entries.filterMap fun e =>
    match e with
    | .keyValue k v => if k = key then some v else none
    | _ => none

/-- `UserConfig::set` (`src/config/model.rs`): update the first KeyValue
entry matching the key in place (leaving the rest untouched), or append a
new entry when none matches; Comment and BlankLine entries are skipped. -/
def UserConfig.set : List ConfigEntry → List Char → List Char → List ConfigEntry
  | [], key, value => [.keyValue key value]
  | .comment t :: rest, key, value => .comment t :: UserConfig.set rest key value
  | .blankLine :: rest, key, value => .blankLine :: UserConfig.set rest key value
  | .keyValue k v :: rest, key, value =>
    if k = key then .keyValue k value :: rest
    else .keyValue k v :: UserConfig.set rest key value

/-- `UserConfig::remove` (`src/config/model.rs`): delete all KeyValue entries
for the key, keeping everything else. -/
def UserConfig.remove (entries : List ConfigEntry) (key : List Char) :
    List ConfigEntry :=
  entries.filter fun e =>
    match e with
    | .keyValue k _ => k ≠ key
    | _ => true

theorem findSome?_eq_head?_filterMap {α β : Type} (f : α → Option β) (l : List α) :
    l.findSome? f = (l.filterMap f).head? := by
  induction l with
  | nil => rfl
  | cons a l ih =>
    rw [List.findSome?_cons, List.filterMap_cons]
    cases f a with
    | none => exact ih
    | some b => rfl

theorem get_eq_getLast?_get_all (entries : List ConfigEntry) (key : List Char) :
    UserConfig.get entries key = (UserConfig.get_all entries key).getLast? := by
  unfold UserConfig.get UserConfig.get_all
  rw [findSome?_eq_head?_filterMap, List.filterMap_reverse, List.head?_reverse]

/-- C3: `get` returns the value of the last matching KeyValue entry — the
last element of `get_all`'s document-order value list (`none` when there is
none) — and on `[KeyValue(k,"a"), KeyValue(k,"b")]`, `get` yields `"b"` and
`get_all` yields `["a","b"]`. -/
theorem c3_get_last_write_wins (entries : List ConfigEntry) (key : List Char) :
    UserConfig.get entries key = (UserConfig.get_all entries key).getLast? ∧
      UserConfig.get [ConfigEntry.keyValue key (str "a"),
        ConfigEntry.keyValue key (str "b")] key = some (str "b") ∧
      UserConfig.get_all [ConfigEntry.keyValue key (str "a"),
        ConfigEntry.keyValue key (str "b")] key = [str "a", str "b"] := by
  refine ⟨get_eq_getLast?_get_all entries key, ?_, ?_⟩
  · simp [UserConfig.get, List.findSome?]
  · simp [UserConfig.get_all]

/-- Whether an entry is a KeyValue entry for the given key. -/
def kv_matches (key : List Char) : ConfigEntry → Bool
  | .keyValue k _ => k = key
  | _ => false

/-- Index of the first KeyValue entry matching the key, if any. -/
def first_kv_idx (key : List Char) : List ConfigEntry → Option Nat
  | [] => none
  | e :: rest =>
    if kv_matches key e then some 0
    else (first_kv_idx key rest).map (· + 1)

theorem set_eq_update_first_or_append (entries : List ConfigEntry)
    (key value : List Char) :
    UserConfig.set entries key value =
      (match first_kv_idx key entries with
        | none => entries ++ [.keyValue key value]
        | some i => entries.set i (.keyValue key value)) := by
  induction entries with
  | nil => rfl
  | cons e rest ih =>
    cases e with
    | keyValue k v =>
      by_cases hk : k = key
      · subst hk
        simp [UserConfig.set, first_kv_idx, kv_matches]
      · rw [UserConfig.set, if_neg hk]
        rw [first_kv_idx, if_neg (by simp [kv_matches, hk]), ih]
        cases first_kv_idx key rest <;> simp
    | comment t =>
      rw [UserConfig.set, first_kv_idx, if_neg (by simp [kv_matches]), ih]
      cases first_kv_idx key rest <;> simp
    | blankLine =>
      rw [UserConfig.set, first_kv_idx, if_neg (by simp [kv_matches]), ih]
      cases first_kv_idx key rest <;> simp

/-- C4: `set` replaces the first matching KeyValue entry in place when one
exists and otherwise appends a new entry at the end; it removes nothing, all
other entries staying in place, so the entry count stays equal or grows by
exactly one. -/
theorem c4_set_updates_first_or_appends (entries : List ConfigEntry)
    (key value : List Char) :
    (UserConfig.set entries key value =
      (match first_kv_idx key entries with
        | none => entries ++ [.keyValue key value]
        | some i => entries.set i (.keyValue key value))) ∧
      ((UserConfig.set entries key value).length = entries.length ∨
        (UserConfig.set entries key value).length = entries.length + 1) := by
  refine ⟨set_eq_update_first_or_append entries key value, ?_⟩
  rw [set_eq_update_first_or_append entries key value]
  cases first_kv_idx key entries <;> simp

theorem get_all_set (entries : List ConfigEntry) (key value : List Char) :
    UserConfig.get_all (UserConfig.set entries key value) key =
      (match UserConfig.get_all entries key with
        | [] => [value]
        | _ :: t => value :: t) := by
  induction entries with
  | nil => simp [UserConfig.set, UserConfig.get_all]
  | cons e rest ih =>
    cases e with
    | keyValue k v =>
      by_cases hk : k = key
      · subst hk
        simp [UserConfig.set, UserConfig.get_all, List.filterMap_cons]
      · rw [UserConfig.set, if_neg hk]
        simp only [UserConfig.get_all, List.filterMap_cons, if_neg hk]
        exact ih
    | comment t =>
      rw [UserConfig.set]
      simp only [UserConfig.get_all, List.filterMap_cons]
      exact ih
    | blankLine =>
      rw [UserConfig.set]
      simp only [UserConfig.get_all, List.filterMap_cons]
      exact ih

/-- C10: when the document holds two or more KeyValue entries for the key,
`set` rewrites only the first of them, so a subsequent `get` — which reads
the last — still returns the pre-existing last value, and in particular does
not observe the value just set whenever that last value differs from it. -/
theorem c10_set_then_get_misses_duplicates (entries : List ConfigEntry)
    (key value : List Char)
    (h : 2 ≤ (UserConfig.get_all entries key).length) :
    UserConfig.get (UserConfig.set entries key value) key =
        UserConfig.get entries key ∧
      (UserConfig.get entries key ≠ some value →
        UserConfig.get (UserConfig.set entries key value) key ≠ some value) := by
  have hmain : UserConfig.get (UserConfig.set entries key value) key =
      UserConfig.get entries key := by
    rw [get_eq_getLast?_get_all, get_eq_getLast?_get_all, get_all_set]
    match hv : UserConfig.get_all entries key with
    | [] => rw [hv] at h; simp at h
    | [a] => rw [hv] at h; simp at h
    | a :: b :: t => simp [List.getLast?_cons_cons]
  exact ⟨hmain, fun hne => hmain ▸ hne⟩

/-- C10 (witness): with entries `[KeyValue(k,"a"), KeyValue(k,"b")]`,
setting `k` to `"c"` leaves `get` returning `"b"`, not `"c"`. -/
theorem c10_witness :
    2 ≤ (UserConfig.get_all [ConfigEntry.keyValue (str "k") (str "a"),
        ConfigEntry.keyValue (str "k") (str "b")] (str "k")).length ∧
      UserConfig.get (UserConfig.set [ConfigEntry.keyValue (str "k") (str "a"),
          ConfigEntry.keyValue (str "k") (str "b")] (str "k") (str "c")) (str "k") =
        UserConfig.get [ConfigEntry.keyValue (str "k") (str "a"),
          ConfigEntry.keyValue (str "k") (str "b")] (str "k") :=
  ⟨by decide, (c10_set_then_get_misses_duplicates _ _ _ (by decide)).1⟩

/-- `ConfigValueType` from `src/config/model.rs`. -/
inductive ConfigValueType
  | boolean
  | integer
  | float
  | color
  | enum (values : List (List Char))
  | text
  | font
  | path
  | keybind
  | palette
  | commaSeparated (inner : ConfigValueType)
deriving DecidableEq

/-- `manual_override` (`src/config/type_inference.rs`): the fixed table of
keys whose type is not inferred from shape. -/
def manual_override (key : List Char) : Option ConfigValueType :=
  if key = str "font-size" then some .float
  else if key = str "adjust-cell-width" ∨ key = str "adjust-cell-height" then
    some .text
  else if key = str "adjust-font-baseline" ∨
      key = str "adjust-underline-position" ∨
      key = str "adjust-underline-thickness" ∨
      key = str "adjust-strikethrough-position" ∨
      key = str "adjust-strikethrough-thickness" ∨
      key = str "adjust-overline-position" ∨
      key = str "adjust-overline-thickness" ∨
      key = str "adjust-cursor-thickness" ∨
      key = str "adjust-cursor-height" ∨
      key = str "adjust-box-thickness" then some .text
  else if key = str "window-padding-x" ∨ key = str "window-padding-y" then
    some .text
  else if key = str "window-padding-balance" then some .boolean
  else if key = str "scrollback-limit" then some .integer
  else if key = str "image-storage-limit" then some .integer
  else if key = str "font-thicken-strength" then some .integer
  else if key = str "faint-opacity" then some .float
  else none

/-- The backtick character (delimiter of enum tokens in documentation). -/
def btick : Char := Char.ofNat 96

/-- The capture of the bullet regex `^\s+\*\s+` backtick `([^
backtick]+)` backtick against a line: leading whitespace (at least one), an
asterisk, whitespace (at least one), then a backtick-delimited non-empty
token. Returns the captured token when the anchored pattern matches. -/
def bulletToken (line : List Char) : Option (List Char) :=
  if line.takeWhile Char.isWhitespace = [] then none
  else
    match line.dropWhile Char.isWhitespace with
    | '*' :: rest2 =>
      if rest2.takeWhile Char.isWhitespace = [] then none
      else
        match rest2.dropWhile Char.isWhitespace with
        | c :: rest4 =>
          if c = btick then
            let tok := rest4.takeWhile (· ≠ btick)
            if tok ≠ [] ∧ btick ∈ rest4 then some tok else none
          else none
        | [] => none
    | _ => none

/-- `extract_enum_values` (`src/config/type_inference.rs`): collect every
bullet token that has no space, no `'='`, and does not start with `e.g`;
the `in_list` flag in the source is written but never read, so collection
never stops early. -/
def extract_enum_values (docs : List Char) : List (List Char) :=
  (rustLines docs).filterMap fun line =>
    match bulletToken line with
    | some val =>
      if ' ' ∉ val ∧ '=' ∉ val ∧ ¬(str "e.g" <+: val) then some val else none
    | none => none

/-- Optional exponent suffix of Rust's `f64` grammar: empty, or `e`/`E`, an
optional sign, and at least one digit. -/
def expOk : List Char → Bool
  | [] => true
  | c :: rest =>
    if c = 'e' ∨ c = 'E' then
      match rest with
      | d :: rest3 =>
        if d = '+' ∨ d = '-' then !rest3.isEmpty && rest3.all Char.isDigit
        else !rest.isEmpty && rest.all Char.isDigit
      | [] => false
    else false

/-- Rust `default.parse::<f64>().is_ok()`: an optional sign, then
`inf`/`infinity`/`nan` (case-insensitive) or a decimal significand with at
least one digit and an optional exponent; overflow cannot fail. -/
def parse_f64_ok (s0 : List Char) : Bool :=
  let s1 := match s0 with
    | c :: rest => if c = '+' ∨ c = '-' then rest else s0
    | [] => s0
  let lower := s1.map Char.toLower
  if lower = str "inf" ∨ lower = str "infinity" ∨ lower = str "nan" then true
  else
    let intDigits := s1.takeWhile Char.isDigit
    let r1 := s1.dropWhile Char.isDigit
    match r1 with
    | '.' :: r2 =>
      let fracDigits := r2.takeWhile Char.isDigit
      let r3 := r2.dropWhile Char.isDigit
      (!intDigits.isEmpty || !fracDigits.isEmpty) && expOk r3
    | _ => !intDigits.isEmpty && expOk r1

/-- Rust `default.parse::<i64>().is_ok()`: an optional sign, at least one
digit, and the value within the `i64` range. -/
def parse_i64_ok (s0 : List Char) : Bool :=
  let signed : Bool × List Char := match s0 with
    | '-' :: rest => (true, rest)
    | '+' :: rest => (false, rest)
    | _ => (false, s0)
  let ds := signed.2
  if ds.isEmpty ∨ ¬(ds.all Char.isDigit = true) then false
  else
    let n := ds.foldl (fun acc c => acc * 10 + (c.toNat - 48)) 0
    if signed.1 then n ≤ 2 ^ 63 else n ≤ 2 ^ 63 - 1

/-- `infer_type` (`src/config/type_inference.rs`): resolution order — manual
override, keybind, palette, font-family keys, boolean default, color key
heuristic with empty-or-`#` default, path keys, documentation enum
extraction, float default, integer default, comma-separated keys, text. -/
def infer_type (key dflt docs : List Char) : ConfigValueType :=
  match manual_override key with
  | some t => t
  | none =>
    if key = str "keybind" then .keybind
    else if key = str "palette" then .palette
    else if key = str "font-family" ∨ key = str "font-family-bold" ∨
        key = str "font-family-italic" ∨ key = str "font-family-bold-italic" then
      .font
    else if dflt = str "true" ∨ dflt = str "false" then .boolean
    else if (str "color" <:+: key ∨ key = str "background" ∨
          key = str "foreground" ∨ str "selection-" <+: key ∨
          key = str "cursor-text" ∨ key = str "bold-color" ∨
          str "split-" <+: key) ∧
        (dflt = [] ∨ dflt.head? = some '#') then
      .color
    else if key = str "config-file" ∨ key = str "working-directory" ∨
        str "custom-shader" <+: key then
      .path
    else if 2 ≤ (extract_enum_values docs).length then
      .enum (extract_enum_values docs)
    else if '.' ∈ dflt ∧ parse_f64_ok dflt = true then .float
    else if dflt ≠ [] ∧ parse_i64_ok dflt = true then .integer
    else if key = str "font-synthetic-style" ∨ key = str "font-feature" then
      .commaSeparated .text
    else .text

/-- `is_repeatable` (`src/config/type_inference.rs`). -/
def is_repeatable (key : List Char) : Bool :=
  decide (key = str "keybind" ∨ key = str "palette" ∨
    key = str "font-family" ∨ key = str "font-family-bold" ∨
    key = str "font-family-italic" ∨ key = str "font-family-bold-italic" ∨
    key = str "font-feature" ∨ key = str "font-variation" ∨
    key = str "font-variation-bold" ∨ key = str "font-variation-italic" ∨
    key = str "font-variation-bold-italic" ∨ key = str "font-codepoint-map" ∨
    key = str "config-file" ∨ key = str "custom-shader")

theorem manual_override_ne_enum (key : List Char) (vs : List (List Char)) :
    manual_override key ≠ some (.enum vs) := by
  unfold manual_override
  split_ifs <;> simp

/-- C5 (counterexample): with documentation whose bullet list repeats one
token, `infer_type` returns an Enum carrying two equal values — only one
distinct value, refuting the claim that Enum always carries at least two
distinct values. -/
theorem c5_counterexample :
    infer_type (str "zzz") [] (str "  * `a` - x\n  * `a` - y\n") =
        .enum [str "a", str "a"] ∧
      ([str "a", str "a"] : List (List Char)).dedup.length = 1 := by decide

/-- C5 (amended): whenever `infer_type` returns `Enum(vs)`, the list `vs`
has at least two elements (tokens in documentation order, possibly with
duplicates — the source checks the collected count, not distinctness). -/
theorem c5_enum_has_two_values (key dflt docs : List Char)
    (vs : List (List Char)) (h : infer_type key dflt docs = .enum vs) :
    2 ≤ vs.length := by
  unfold infer_type at h
  cases hmo : manual_override key with
  | some t =>
    simp only [hmo] at h
    exact absurd (by rw [hmo]; exact congrArg some h) (manual_override_ne_enum key vs)
  | none =>
    simp only [hmo] at h
    repeat' split at h
    all_goals cases h
    all_goals assumption

/-- C5 (witness for the amended theorem): three bullet values. -/
theorem c5_witness :
    infer_type (str "cursor-style") (str "block")
        (str "Valid values:\n\n  * `block` - A\n  * `bar` - B\n  * `underline` - C\n") =
      .enum [str "block", str "bar", str "underline"] ∧
      2 ≤ ([str "block", str "bar", str "underline"] : List (List Char)).length :=
  ⟨by decide,
    c5_enum_has_two_values (str "cursor-style") (str "block")
      (str "Valid values:\n\n  * `block` - A\n  * `bar` - B\n  * `underline` - C\n")
      [str "block", str "bar", str "underline"] (by decide)⟩

/-- C6 (counterexample): `font-size` sits in the manual-override table, so an
empty default value still infers Float — refuting the claim that an empty
default never yields Boolean, Integer, or Float for every key. -/
theorem c6_counterexample :
    infer_type (str "font-size") [] [] = .float := by decide

/-- C6 (amended): for every key outside the manual-override table and every
documentation string, an empty default value never infers Boolean, Integer,
or Float. -/
theorem c6_empty_default_not_numeric (key docs : List Char)
    (h : manual_override key = none) :
    infer_type key [] docs ≠ .boolean ∧ infer_type key [] docs ≠ .integer ∧
      infer_type key [] docs ≠ .float := by
  have hb : ¬(([] : List Char) = str "true" ∨ ([] : List Char) = str "false") := by
    decide
  have hf : ¬('.' ∈ ([] : List Char) ∧ parse_f64_ok [] = true) := by decide
  have hi : ¬(([] : List Char) ≠ [] ∧ parse_i64_ok [] = true) := by decide
  unfold infer_type
  simp only [h, if_neg hb, if_neg hf, if_neg hi]
  refine ⟨?_, ?_, ?_⟩ <;>
    · intro hc
      repeat' split at hc
      all_goals cases hc

/-- C6 (witness for the amended theorem). -/
theorem c6_witness :
    manual_override (str "unknown-key") = none ∧
      infer_type (str "unknown-key") [] [] ≠ .boolean ∧
      infer_type (str "unknown-key") [] [] ≠ .integer ∧
      infer_type (str "unknown-key") [] [] ≠ .float :=
  ⟨by decide, c6_empty_default_not_numeric (str "unknown-key") [] (by decide)⟩

/-- `Category` from `src/config/model.rs`. -/
inductive Category
  | fonts
  | colors
  | window
  | cursor
  | mouse
  | clipboard
  | keybindings
  | shell
  | appearance
  | background
  | macOS
  | gtkLinux
  | scrollback
  | input
  | terminal
  | advanced
deriving DecidableEq

/-- `categorize_key` (`src/config/categorize.rs`): exact key matches first,
then the ordered prefix/substring predicate rules, then Advanced. -/
def categorize_key (key : List Char) : Category :=
  if key = str "theme" then .appearance
  else if key = str "keybind" then .keybindings
  else if key = str "palette" then .colors
  else if key = str "config-file" then .advanced
  else if key = str "term" then .terminal
  else if key = str "enquiry-response" then .terminal
  else if key = str "title" then .window
  else if key = str "class" ∨ key = str "x11-instance-name" then .gtkLinux
  else if key = str "scrollback-limit" then .scrollback
  else if key = str "link" ∨ key = str "link-url" then .mouse
  else if str "font-" <+: key then .fonts
  else if str "cursor-" <+: key then .cursor
  else if str "mouse-" <+: key ∨ str "click-" <+: key then .mouse
  else if str "clipboard-" <+: key ∨ str "copy-on-select" <+: key then .clipboard
  else if str "shell-" <+: key ∨ key = str "command" ∨
      key = str "wait-after-command" ∨ key = str "initial-command" then .shell
  else if str "window-" <+: key ∨ str "resize-" <+: key ∨
      str "fullscreen" <+: key ∨ key = str "confirm-close-surface" then .window
  else if str "background" <+: key then .background
  else if str "foreground" <+: key ∨ str "selection-" <+: key ∨
      str "color" <:+: key ∨ key = str "bold-is-bright" ∨
      key = str "minimum-contrast" ∨ key = str "palette" ∨
      key = str "invert-selection-fg-bg" ∨ key = str "bold-color" ∨
      key = str "faint-opacity" then .colors
  else if str "macos-" <+: key ∨ str "auto-update" <+: key ∨
      key = str "quick-terminal-position" ∨ str "quick-terminal" <+: key then
    .macOS
  else if str "gtk-" <+: key ∨ str "adw-" <+: key ∨ str "linux-" <+: key then
    .gtkLinux
  else if str "scrollback" <+: key ∨ str "scroll-" <+: key then .scrollback
  else if str "input-" <+: key ∨ key = str "vt-kam-allowed" ∨
      str "desktop-notifications" <+: key then .input
  else if key = str "adjust-cell-width" ∨ key = str "adjust-cell-height" ∨
      key = str "adjust-font-baseline" ∨ key = str "adjust-underline-position" ∨
      key = str "adjust-underline-thickness" ∨
      key = str "adjust-strikethrough-position" ∨
      key = str "adjust-strikethrough-thickness" ∨
      key = str "adjust-overline-position" ∨
      key = str "adjust-overline-thickness" ∨
      key = str "adjust-cursor-thickness" ∨ key = str "adjust-cursor-height" ∨
      key = str "adjust-box-thickness" then .fonts
  else if key = str "unfocused-split-fill" ∨ key = str "split-color" ∨
      str "unfocused-split" <+: key then .appearance
  else if key = str "osc-color-report-format" ∨
      key = str "abnormal-command-exit-runtime" ∨
      key = str "image-storage-limit" ∨ key = str "custom-shader" ∨
      key = str "custom-shader-animation" ∨ str "grapheme-" <+: key ∨
      str "freetype-" <+: key ∨ key = str "async-backend" then .advanced
  else if key = str "minimum-contrast" ∨ key = str "bold-is-bright" ∨
      str "cell-" <+: key ∨ str "focus-" <+: key ∨ str "unfocused-" <+: key then
    .appearance
  else .advanced

/-- The disjunction of every exact-match and predicate rule condition of
`categorize_key`, in source order; a key matching none of them falls through
to the Advanced default. -/
def matchesAnyCategorizeRule (key : List Char) : Prop :=
  key = str "theme" ∨
  key = str "keybind" ∨
  key = str "palette" ∨
  key = str "config-file" ∨
  key = str "term" ∨
  key = str "enquiry-response" ∨
  key = str "title" ∨
  (key = str "class" ∨ key = str "x11-instance-name") ∨
  key = str "scrollback-limit" ∨
  (key = str "link" ∨ key = str "link-url") ∨
  str "font-" <+: key ∨
  str "cursor-" <+: key ∨
  (str "mouse-" <+: key ∨ str "click-" <+: key) ∨
  (str "clipboard-" <+: key ∨ str "copy-on-select" <+: key) ∨
  (str "shell-" <+: key ∨ key = str "command" ∨
    key = str "wait-after-command" ∨ key = str "initial-command") ∨
  (str "window-" <+: key ∨ str "resize-" <+: key ∨
    str "fullscreen" <+: key ∨ key = str "confirm-close-surface") ∨
  str "background" <+: key ∨
  (str "foreground" <+: key ∨ str "selection-" <+: key ∨
    str "color" <:+: key ∨ key = str "bold-is-bright" ∨
    key = str "minimum-contrast" ∨ key = str "palette" ∨
    key = str "invert-selection-fg-bg" ∨ key = str "bold-color" ∨
    key = str "faint-opacity") ∨
  (str "macos-" <+: key ∨ str "auto-update" <+: key ∨
    key = str "quick-terminal-position" ∨ str "quick-terminal" <+: key) ∨
  (str "gtk-" <+: key ∨ str "adw-" <+: key ∨ str "linux-" <+: key) ∨
  (str "scrollback" <+: key ∨ str "scroll-" <+: key) ∨
  (str "input-" <+: key ∨ key = str "vt-kam-allowed" ∨
    str "desktop-notifications" <+: key) ∨
  (key = str "adjust-cell-width" ∨ key = str "adjust-cell-height" ∨
    key = str "adjust-font-baseline" ∨ key = str "adjust-underline-position" ∨
    key = str "adjust-underline-thickness" ∨
    key = str "adjust-strikethrough-position" ∨
    key = str "adjust-strikethrough-thickness" ∨
    key = str "adjust-overline-position" ∨
    key = str "adjust-overline-thickness" ∨
    key = str "adjust-cursor-thickness" ∨ key = str "adjust-cursor-height" ∨
    key = str "adjust-box-thickness") ∨
  (key = str "unfocused-split-fill" ∨ key = str "split-color" ∨
    str "unfocused-split" <+: key) ∨
  (key = str "osc-color-report-format" ∨
    key = str "abnormal-command-exit-runtime" ∨
    key = str "image-storage-limit" ∨ key = str "custom-shader" ∨
    key = str "custom-shader-animation" ∨ str "grapheme-" <+: key ∨
    str "freetype-" <+: key ∨ key = str "async-backend") ∨
  (key = str "minimum-contrast" ∨ key = str "bold-is-bright" ∨
    str "cell-" <+: key ∨ str "focus-" <+: key ∨ str "unfocused-" <+: key)

set_option maxRecDepth 4000 in
set_option synthInstance.maxSize 4000 in
set_option synthInstance.maxHeartbeats 1000000 in
instance (key : List Char) : Decidable (matchesAnyCategorizeRule key) := by
  unfold matchesAnyCategorizeRule
  infer_instance

/-- C7: the substring-`color` rule belongs to the Colors predicate, which is
evaluated before the Appearance rule naming `split-color` and before the
Advanced rule naming `osc-color-report-format` — both keys categorize as
Colors; and any key matching no exact or predicate rule categorizes as
Advanced. -/
theorem c7_categorize_precedence (key : List Char)
    (h : ¬matchesAnyCategorizeRule key) :
    categorize_key (str "split-color") = .colors ∧
      categorize_key (str "osc-color-report-format") = .colors ∧
      categorize_key key = .advanced := by
  refine ⟨by decide, by decide, ?_⟩
  simp only [matchesAnyCategorizeRule, not_or] at h
  obtain ⟨h1, h2, h3, h4, h5, h6, h7, h8, h9, h10, h11, h12, h13, h14, h15,
    h16, h17, h18, h19, h20, h21, h22, h23, h24, h25, h26⟩ := h
  simp [categorize_key, h1, h2, h3, h4, h5, h6, h7, h8, h9, h10, h11, h12,
    h13, h14, h15, h16, h17, h18, h19, h20, h21, h22, h23, h24, h25, h26]

/-- C7 (witness): an unknown key matches no rule and categorizes Advanced. -/
theorem c7_witness :
    ¬matchesAnyCategorizeRule (str "totally-unknown-key") ∧
      categorize_key (str "totally-unknown-key") = .advanced :=
  ⟨by decide, (c7_categorize_precedence (str "totally-unknown-key") (by decide)).2.2⟩

/-- `ConfigOption` from `src/config/model.rs`: one schema entry. -/
structure ConfigOption where
  key : List Char
  default_value : List Char
  documentation : List Char
  value_type : ConfigValueType
  category : Category
  is_repeatable : Bool
deriving DecidableEq

/-- The loop state of `parse_show_config` (`src/config/parser.rs`): emitted
options, accumulated documentation lines, and the set of seen keys
(the `HashSet` modelled as a membership list). -/
structure ParseState where
  options : List ConfigOption
  doc_lines : List (List Char)
  seen_keys : List (List Char)
deriving DecidableEq

/-- The documentation string finalized for a block: trailing blank lines
trimmed off the accumulator, the rest joined with newlines. -/
def joined_docs (doc_lines : List (List Char)) : List Char :=
  List.intercalate ['\n'] ((doc_lines.reverse.dropWhile List.isEmpty).reverse)

/-- The option built for a finalized `key = value` block. -/
def mk_option (key value documentation : List Char) : ConfigOption :=
  { key := key, default_value := value, documentation := documentation,
    value_type := infer_type key value documentation,
    category := categorize_key key, is_repeatable := is_repeatable key }

/-- One iteration of the `parse_show_config` loop: a `#` line accumulates
documentation (stripping `#` and one optional space); a blank line is
recorded in the documentation only when it is already non-empty; a `key =
value` line finalizes the block and emits an option unless the key was
already seen without fresh documentation, replacing the earlier option when
fresh documentation is present; any other line is ignored. -/
def parse_step (st : ParseState) (line : List Char) : ParseState :=
  if line.head? = some '#' then
    { st with doc_lines := st.doc_lines ++
        [if line.tail.head? = some ' ' then line.tail.tail else line.tail] }
  else if rustTrim line = [] then
    if st.doc_lines = [] then st
    else { st with doc_lines := st.doc_lines ++ [[]] }
  else
    match splitOnce '=' line with
    | some (k, v) =>
      if rustTrim k ∉ st.seen_keys ∨ joined_docs st.doc_lines ≠ [] then
        { options :=
            (if rustTrim k ∈ st.seen_keys ∧ joined_docs st.doc_lines ≠ [] then
                st.options.filter (fun o => o.key ≠ rustTrim k)
              else st.options) ++
            [mk_option (rustTrim k) (rustTrim v) (joined_docs st.doc_lines)],
          doc_lines := [],
          seen_keys :=
            if rustTrim k ∈ st.seen_keys then st.seen_keys
            else rustTrim k :: st.seen_keys }
      else { st with doc_lines := [] }
    | none => st

/-- `parse_show_config` (`src/config/parser.rs`): fold the loop over the
input's lines and return the emitted options. -/
def parse_show_config (output : List Char) : List ConfigOption :=
  ((rustLines output).foldl parse_step ⟨[], [], []⟩).options

theorem map_key_filter_ne (opts : List ConfigOption) (key : List Char) :
    (opts.filter (fun o => o.key ≠ key)).map ConfigOption.key =
      (opts.map ConfigOption.key).filter (fun x => x ≠ key) := by
  induction opts with
  | nil => rfl
  | cons o opts ih =>
    simp only [decide_not] at ih
    by_cases h : o.key = key
    · simp [List.filter_cons, h, ih]
    · simp [List.filter_cons, h, ih]

theorem parse_step_inv (st : ParseState) (line : List Char)
    (h1 : (st.options.map ConfigOption.key).Nodup)
    (h2 : ∀ k, k ∈ st.options.map ConfigOption.key ↔ k ∈ st.seen_keys) :
    ((parse_step st line).options.map ConfigOption.key).Nodup ∧
      ∀ k, k ∈ (parse_step st line).options.map ConfigOption.key ↔
        k ∈ (parse_step st line).seen_keys := by
  unfold parse_step
  split
  · exact ⟨h1, h2⟩
  split
  · split
    · exact ⟨h1, h2⟩
    · exact ⟨h1, h2⟩
  split
  · next k v _ =>
    split
    · next hc =>
      by_cases hs : rustTrim k ∈ st.seen_keys
      · have hd : joined_docs st.doc_lines ≠ [] := by
          rcases hc with hc | hc
          · exact absurd hs hc
          · exact hc
        simp only [if_pos (And.intro hs hd), if_pos hs, List.map_append,
          mk_option, List.map_cons, List.map_nil, map_key_filter_ne]
        constructor
        · rw [List.nodup_append]
          refine ⟨h1.filter _, List.nodup_singleton _, ?_⟩
          intro x hx hx2
          simp only [List.mem_singleton] at hx2
          subst hx2
          have := (List.mem_filter.mp hx).2
          simp at this
        · intro k2
          by_cases hk2 : k2 = rustTrim k
          · subst hk2
            simp [hs]
          · simp only [List.mem_append, List.mem_filter, List.mem_singleton,
              hk2, or_false, decide_not, Bool.not_eq_eq_eq_not, Bool.not_false,
              decide_eq_true_eq]
            rw [h2 k2]
            simp [hk2]
      · have hno : ¬(rustTrim k ∈ st.seen_keys ∧ joined_docs st.doc_lines ≠ []) :=
          fun hcontra => hs hcontra.1
        simp only [if_neg hno, if_neg hs, List.map_append, mk_option,
          List.map_cons, List.map_nil]
        constructor
        · rw [List.nodup_append]
          refine ⟨h1, List.nodup_singleton _, ?_⟩
          intro x hx hx2
          simp only [List.mem_singleton] at hx2
          subst hx2
          exact hs ((h2 _).mp hx)
        · intro k2
          rw [List.mem_append, h2 k2]
          simp [Or.comm]
    · next => exact ⟨h1, h2⟩
  · exact ⟨h1, h2⟩

theorem parse_fold_inv (lines : List (List Char)) (st : ParseState)
    (h1 : (st.options.map ConfigOption.key).Nodup)
    (h2 : ∀ k, k ∈ st.options.map ConfigOption.key ↔ k ∈ st.seen_keys) :
    (((lines.foldl parse_step st).options.map ConfigOption.key).Nodup) ∧
      ∀ k, k ∈ (lines.foldl parse_step st).options.map ConfigOption.key ↔
        k ∈ (lines.foldl parse_step st).seen_keys := by
  induction lines generalizing st with
  | nil => exact ⟨h1, h2⟩
  | cons line lines ih =>
    rw [List.foldl_cons]
    obtain ⟨g1, g2⟩ := parse_step_inv st line h1 h2
    exact ih (parse_step st line) g1 g2

/-- C8: every key appears at most once among the parsed options; a duplicate
key occurrence replaces the earlier option exactly when it carries non-empty
accumulated documentation and is dropped otherwise — concretely, a key seen
first undocumented and then documented yields one option holding the second
occurrence's documentation and default, while a second undocumented
occurrence is discarded in favor of the first. -/
theorem c8_dedup_keys (output : List Char) :
    ((parse_show_config output).map ConfigOption.key).Nodup ∧
      parse_show_config (str "k = 1\n\n# Doc line\nk = 2\n") =
        [mk_option (str "k") (str "2") (str "Doc line")] ∧
      parse_show_config (str "k = 1\nk = 2\n") =
        [mk_option (str "k") (str "1") []] := by
  refine ⟨?_, by decide, by decide⟩
  exact (parse_fold_inv (rustLines output) ⟨[], [], []⟩ (by simp) (by simp)).1

theorem splitOnce_eq_none_of_not_mem (sep : Char) (l : List Char)
    (h : sep ∉ l) : splitOnce sep l = none := by
  induction l with
  | nil => rfl
  | cons c cs ih =>
    have hcs : c ≠ sep := fun hc => h (hc ▸ List.mem_cons_self c cs)
    rw [splitOnce, if_neg hcs]
    rw [ih (fun hc => h (List.mem_cons_of_mem c hc))]
    rfl

/-- C9: reading never fails — a non-existent file yields an empty document,
every input line yields exactly one entry (no line aborts the parse), and a
line with no `=`, not starting with `#`, and not blank is preserved as an
opaque Comment entry. -/
theorem c9_read_total (line : List Char) (hblank : rustTrim line ≠ [])
    (hhash : line.head? ≠ some '#') (heq : '=' ∉ line) :
    read_config none = [] ∧
      (∀ content, (read_config_entries content).length =
        (rustLines content).length) ∧
      classifyLine line = .comment line := by
  refine ⟨rfl, fun content => List.length_map _ _, ?_⟩
  unfold classifyLine
  rw [if_neg hblank, if_neg hhash, splitOnce_eq_none_of_not_mem '=' line heq]

/-- C9 (witness): the line `hello world` has no `=`, no leading `#`, and is
not blank, and is preserved as an opaque Comment. -/
theorem c9_witness :
    rustTrim (str "hello world") ≠ [] ∧
      (str "hello world").head? ≠ some '#' ∧ '=' ∉ str "hello world" ∧
      read_config none = [] ∧
      classifyLine (str "hello world") = .comment (str "hello world") :=
  ⟨by decide, by decide, by decide,
    (c9_read_total (str "hello world") (by decide) (by decide) (by decide)).1,
    (c9_read_total (str "hello world") (by decide) (by decide) (by decide)).2.2⟩

end GhosttyConfig
